import Mathlib

/-!
# ARTist: method descriptor, codelib symbol table and pass dispatcher

A shallow embedding of

* `src/api/modules/method_info.cc`  (`ArtistMethodInfo`),
* `src/api/env/codelib_symbols.cc`  (`CodelibSymbols`),
* `src/artist.cc`                   (`HArtist`),

followed by the properties established about them.

Conventions.  A C++ pointer that may be `nullptr` is an `Option`.  A call of
`ErrorHandler::abortCompilation(msg)` is `Except.error msg`.  An indexed read
of a `std::vector` outside its bounds is `Except.error` carrying the index.
The `uint32_t` counter is a `Nat` incremented modulo `2 ^ 32`.  `VLOG` output
is not part of the state.
-/

namespace art

/-! ## Host IR -/

/-- An IR node of the host compiler, identified by its id. -/
abbrev HInstruction := Nat

/-- Host parameter node `HParameterValue`: its position in the parameter list
(`GetIndex()`, the receiver of an instance method included) and the receiver
mark given at construction. -/
structure HParameterValue where
  index : Nat
  is_this : Bool
deriving DecidableEq, Repr

/-- Host accessor `HParameterValue::CanBeNull()`; method_info.cc:82 records that
it "is implemented as !is_this". -/
def HParameterValue.CanBeNull (p : HParameterValue) : Bool := !p.is_this

/-! ## `ArtistMethodInfo` (method_info.cc) -/

/-- Fields of `ArtistMethodInfo`.  `is_static` stands for
`compilationUnit.IsStatic()`; `params` and `paramTypes` are the two vectors the
factory fills. -/
structure ArtistMethodInfo where
  is_static : Bool
  methodName : String
  methodNameWithSignature : String
  params : List HParameterValue
  paramTypes : List String

namespace ArtistMethodInfo

/-- method_info.cc:45-50. -/
def GetMethodName (info : ArtistMethodInfo) (signature : Bool) : String :=
  if signature then info.methodNameWithSignature else info.methodName

/-- method_info.cc:52-54. -/
def IsStatic (info : ArtistMethodInfo) : Bool := info.is_static

/-- method_info.cc:56-58. -/
def GetParams (info : ArtistMethodInfo) : List HParameterValue := info.params

/-- method_info.cc:60-62. -/
def GetParamTypes (info : ArtistMethodInfo) : List String := info.paramTypes

/-- An indexed read `v[index]` of a vector of `size` elements that lies outside
the vector. -/
structure OutOfRange where
  index : Int
  size : Nat
deriving DecidableEq, Repr

/-- method_info.cc:64-79.  `C_STRING` is `JavaEnvironment::C_STRING`, declared
in a header that is not part of the sources at hand, hence a parameter.
`arg_index` is a C++ `int`; the decrement is taken on the `IsStatic()` branch
exactly as the source has it. -/
def IsStringParam (C_STRING : String) (info : ArtistMethodInfo)
    (param : HParameterValue) : Except OutOfRange Bool :=
  let arg_index : Int := param.index
  let arg_index : Int := if info.IsStatic then arg_index - 1 else arg_index
  if arg_index < 0 then
    .ok false
  else
    match info.paramTypes[arg_index.toNat]? with
    | some ty => .ok (decide (ty = C_STRING))
    | none => .error ⟨arg_index, info.paramTypes.length⟩

/-- method_info.cc:81-84. -/
def IsThisParameter (_info : ArtistMethodInfo) (param : HParameterValue) : Bool :=
  !param.CanBeNull

end ArtistMethodInfo

/-- Modelled from the spec: the parameter values that the method-info factory
(`MethodInfoFactory::obtain`, not among the sources) collects from the host
graph.  Spec section 3: the lists are index-aligned and "receiver (if instance
method) occupies conceptual slot -1 relative to declared parameters"; section
4.2: "the host IR marks the receiver specially".  So a static method with `n`
declared parameters has values with host indices `0..n-1`, none marked; an
instance method has the marked receiver at host index `0` followed by the
declared parameters at `1..n`. -/
def hostParams (is_static : Bool) (n : Nat) : List HParameterValue :=
  if is_static then
    (List.range n).map (fun i => ⟨i, false⟩)
  else
    ⟨0, true⟩ :: (List.range n).map (fun i => ⟨i + 1, false⟩)

/-! ## `CodelibSymbols` (codelib_symbols.cc) -/

abbrev MethodSignature := String
abbrev MethodIdx := Nat
abbrev TypeIdx := Nat

/-- The target dex file as the symbol table sees it.  The two lookups are
`ArtUtils::FindTypeIdxFromName` and `ArtUtils::FindMethodIdx` (declared outside
the sources at hand, hence fields that any function may fill): `some idx` is
"returns true and stores `idx` through the out-pointer", `none` is "returns
false". -/
structure DexFile where
  location : String
  FindTypeIdxFromName : String → Option TypeIdx
  FindMethodIdx : MethodSignature → Option MethodIdx

/-- The codelib: its class name (`getCodeClass()`) and the signatures it
declares (`getMethods()`), in iteration order. -/
structure CodeLib where
  getCodeClass : String
  getMethods : List MethodSignature

/-- The map `_method_idx`, as its entries. -/
abbrev MethodIdxMap := List (MethodSignature × MethodIdx)

/-- `_method_idx.find(k)`: the entry stored under `k`, `none` for `end()`. -/
def mapFind : MethodIdxMap → MethodSignature → Option MethodIdx
  | [], _ => none
  | (k', v') :: rest, k => if k' = k then some v' else mapFind rest k

/-- The write `_method_idx[k] = v`: `operator[]` creates the entry when `k` is
absent, the store through the reference sets its value. -/
def mapStore : MethodIdxMap → MethodSignature → MethodIdx → MethodIdxMap
  | [], k, v => [(k, v)]
  | (k', v') :: rest, k, v =>
    if k' = k then (k, v) :: rest else (k', v') :: mapStore rest k v

/-- Fields of `CodelibSymbols`. -/
structure CodelibSymbols where
  _dex_file : DexFile
  _type_idx : TypeIdx
  _method_idx : MethodIdxMap

namespace CodelibSymbols

/-- codelib_symbols.cc:66-72, the loop over `codelib->getMethods()`:
`FindMethodIdx` writes through `&(_method_idx[signature])`, and a signature it
does not find aborts compilation. -/
def initMethodIndices (dex_file : DexFile) :
    List MethodSignature → MethodIdxMap → Except String MethodIdxMap
  | [], m => .ok m
  | signature :: rest, m =>
    match dex_file.FindMethodIdx signature with
    | none => .error ("Could not find method idx for " ++ signature)
    | some idx => initMethodIndices dex_file rest (mapStore m signature idx)

/-- codelib_symbols.cc:27-73, the constructor `CodelibSymbols::CodelibSymbols`. -/
def ctor (dex_file : DexFile) (codelib : CodeLib) :
    Except String CodelibSymbols :=
  let codelib_class := codelib.getCodeClass
  match dex_file.FindTypeIdxFromName codelib_class with
  | none => .error ("Could not find type " ++ codelib_class)
  | some type_idx =>
    match initMethodIndices dex_file codelib.getMethods [] with
    | .error msg => .error msg
    | .ok m => .ok ⟨dex_file, type_idx, m⟩

/-- codelib_symbols.cc:76-78. -/
def getDexFile (self : CodelibSymbols) : DexFile := self._dex_file

/-- codelib_symbols.cc:80-82. -/
def getTypeIdx (self : CodelibSymbols) : TypeIdx := self._type_idx

/-- codelib_symbols.cc:84-91. -/
def getMethodIdx (self : CodelibSymbols) (signature : MethodSignature) :
    Except String MethodIdx :=
  match mapFind self._method_idx signature with
  | none =>
    .error ("CodelibSymbols: Failed obtaining method idx for signature " ++ signature)
  | some second => .ok second

end CodelibSymbols

/-- The first element of `sigs` that the file's method lookup does not find. -/
def firstUnresolved (dex_file : DexFile) : List MethodSignature → Option MethodSignature
  | [] => none
  | s :: rest =>
    match dex_file.FindMethodIdx s with
    | none => some s
    | some _ => firstUnresolved dex_file rest

/-! ## `HArtist` (artist.cc) -/

/-- What the pass reads of the host graph: the dex file of the method and the
instructions of the entry block, in order. -/
structure HGraph where
  dex_file : DexFile
  entry_block : List HInstruction

/-- `graph_->GetEntryBlock()->GetLastInstruction()`. -/
def HGraph.GetEntryBlockLastInstruction (g : HGraph) : Option HInstruction :=
  g.entry_block.getLast?

/-- Fields of a pass instance. -/
structure HArtist where
  graph_ : HGraph
  method_info : ArtistMethodInfo
  codelib_instruction : Option HInstruction

/-- A call the pass makes into code outside artist.cc: the two module hooks, and
the injection primitive with the anchor it is given and the fourth argument
when one is written at the call site. -/
inductive Call where
  | SetupModule
  | RunModule
  | InjectCodeLib (anchor : Option HInstruction) (fourth : Option Bool)
deriving DecidableEq, Repr

/-- Process-wide state: the static `HArtist::method_counter` (`uint32_t`) and
the calls made so far, oldest first. -/
structure Process where
  method_counter : Nat
  calls : List Call
deriving DecidableEq, Repr

/-- Collaborators of the pass that are declared outside the sources at hand.
`IsBlacklisted` is `BlackList::IsBlacklisted`, `isCodelib` is
`DexfileEnvironment::isCodelib`, `signature_default` is the default argument of
`GetMethodName`; `SetupModule` and `RunModule` are the virtual hooks of the
concrete module, acting on the pass instance (its graph and cache; they do not
write the static counter), `InjectCodeLib` is `ArtUtils::InjectCodeLib` with the
codelib environment and the compilation unit fixed (anchor, fourth argument,
graph to returned node and graph; a returned `nullptr` is `none`). -/
structure Collaborators where
  IsBlacklisted : String → Bool
  isCodelib : DexFile → Bool
  signature_default : Bool
  SetupModule : HArtist → HArtist
  RunModule : HArtist → HArtist
  InjectCodeLib : Option HInstruction → Option Bool → HGraph → Option HInstruction × HGraph

/-- The value `uint32_t HArtist::method_counter = 0` and no call made yet. -/
def Process.start : Process := ⟨0, []⟩

/-- `++method_counter` on a `uint32_t`. -/
def preIncrement (counter : Nat) : Nat := (counter + 1) % 2 ^ 32

namespace HArtist

/-- artist.cc:52-69, the constructor `HArtist::HArtist`:
`codelib_instruction(nullptr)`. -/
def ctor (graph : HGraph) (method_info : ArtistMethodInfo) : HArtist :=
  ⟨graph, method_info, none⟩

/-- artist.cc:111-117. -/
def Setup (c : Collaborators) (self : HArtist) (p : Process) : HArtist × Process :=
  (c.SetupModule self, { p with calls := p.calls ++ [Call.SetupModule] })

/-- The call of the virtual `RunModule()`. -/
def RunModule (c : Collaborators) (self : HArtist) (p : Process) : HArtist × Process :=
  (c.RunModule self, { p with calls := p.calls ++ [Call.RunModule] })

/-- artist.cc:81-109. -/
def Run (c : Collaborators) (self : HArtist) (p : Process) : HArtist × Process :=
  let method_name := self.method_info.GetMethodName c.signature_default
  if c.IsBlacklisted method_name then
    (self, p)
  else if c.isCodelib self.graph_.dex_file then
    (self, p)
  else
    let p1 : Process := { p with method_counter := preIncrement p.method_counter }
    let r := Setup c self p1
    RunModule c r.1 r.2

/-- artist.cc:120-136.  The result is the returned pointer together with the
pass instance and the process state after the call. -/
def GetCodeLibInstruction (c : Collaborators) (self : HArtist) (p : Process)
    (instruction_cursor : Option HInstruction) :
    Option HInstruction × HArtist × Process :=
  match self.codelib_instruction with
  | none =>
    match instruction_cursor with
    | none =>
      let anchor := self.graph_.GetEntryBlockLastInstruction
      let r := c.InjectCodeLib anchor none self.graph_
      (r.1, { self with codelib_instruction := r.1, graph_ := r.2 },
        { p with calls := p.calls ++ [Call.InjectCodeLib anchor none] })
    | some cursor =>
      let r := c.InjectCodeLib (some cursor) (some false) self.graph_
      (r.1, { self with codelib_instruction := r.1, graph_ := r.2 },
        { p with calls := p.calls ++ [Call.InjectCodeLib (some cursor) (some false)] })
  | some node => (some node, self, p)

end HArtist

/-- The method of the pass is eligible: not blacklisted, not in the codelib
file. -/
def eligible (c : Collaborators) (self : HArtist) : Bool :=
  !c.IsBlacklisted (self.method_info.GetMethodName c.signature_default) &&
    !c.isCodelib self.graph_.dex_file

/-- `Run` of each pass instance of `passes` in turn; the process state after the
last one. -/
def runAll (c : Collaborators) : List HArtist → Process → Process
  | [], p => p
  | self :: rest, p => runAll c rest (HArtist.Run c self p).2

/-- `GetCodeLibInstruction` with each cursor of `cursors` in turn on the same
pass instance: the returned pointers in order, the instance and the process
state at the end. -/
def getAll (c : Collaborators) :
    List (Option HInstruction) → HArtist → Process →
      List (Option HInstruction) × HArtist × Process
  | [], self, p => ([], self, p)
  | cursor :: rest, self, p =>
    let r := HArtist.GetCodeLibInstruction c self p cursor
    let rs := getAll c rest r.2.1 r.2.2
    (r.1 :: rs.1, rs.2.1, rs.2.2)

/-! ## Concrete inputs -/

/-- Scenario A of the spec: a target file that declares the type `Log` and the
method `trace()`. -/
def scenarioDex : DexFile :=
  ⟨"target.dex",
    fun name => if name = "Log" then some 7 else none,
    fun signature => if signature = "trace()" then some 12 else none⟩

/-- Scenario A of the spec: the codelib class `Log` with its method `trace()`. -/
def scenarioCodelib : CodeLib := ⟨"Log", ["trace()"]⟩

/-- The table the constructor builds for scenario A. -/
def scenarioTable : CodelibSymbols := ⟨scenarioDex, 7, [("trace()", 12)]⟩

/-- A codelib that also declares `write(int)`, which `scenarioDex` does not
hold. -/
def scenarioCodelibWrite : CodeLib := ⟨"Log", ["trace()", "write(int)"]⟩

/-- Collaborators with an empty blacklist, no codelib file, hooks that leave the
pass as it is and an injection primitive that returns node `100`. -/
def plainCollaborators : Collaborators :=
  ⟨fun _ => false, fun _ => false, false, fun self => self, fun self => self,
    fun _ _ g => (some 100, g)⟩

/-- Collaborators as `plainCollaborators`, with the method name `skipped`
blacklisted. -/
def blacklistCollaborators : Collaborators :=
  { plainCollaborators with IsBlacklisted := fun name => decide (name = "skipped") }

/-- A pass instance, freshly constructed, for the instance method `m(int)` of
the file of scenario A, whose entry block holds the nodes `1, 2, 3`. -/
def plainPass : HArtist :=
  HArtist.ctor ⟨scenarioDex, [1, 2, 3]⟩
    ⟨false, "m", "m(int)", hostParams false 1, ["int"]⟩

/-- A pass instance, freshly constructed, for a method named `skipped`. -/
def skippedPass : HArtist :=
  HArtist.ctor ⟨scenarioDex, [1, 2, 3]⟩
    ⟨true, "skipped", "skipped()", hostParams true 0, []⟩

end art

/-! # Properties -/

namespace art

open ArtistMethodInfo

/-! ## The method descriptor -/

/-- What `IsStringParam` computes on a static method: host index `0` gives
`false` without a read, host index `k + 1` reads the type name at `k`. -/
theorem IsStringParam_static (C_STRING : String) (info : ArtistMethodInfo)
    (hs : info.is_static = true) (k : Nat) (is_this : Bool) :
    IsStringParam C_STRING info ⟨0, is_this⟩ = .ok false ∧
    IsStringParam C_STRING info ⟨k + 1, is_this⟩ =
      (match info.paramTypes[k]? with
        | some ty => .ok (decide (ty = C_STRING))
        | none => .error ⟨k, info.paramTypes.length⟩) := by
  constructor
  · simp [IsStringParam, IsStatic, hs]
  · have h1 : ¬ ((k : Int) + 1 - 1 < 0) := by omega
    have h2 : ((k : Int) + 1 - 1).toNat = k := by omega
    have h3 : ((k : Int) + 1 - 1) = k := by omega
    cases h : info.paramTypes[k]? <;> simp [IsStringParam, IsStatic, hs, h1, h2, h3, h]

/-- What `IsStringParam` computes on an instance method: host index `k` reads
the type name at `k`, without any adjustment. -/
theorem IsStringParam_instance (C_STRING : String) (info : ArtistMethodInfo)
    (hs : info.is_static = false) (k : Nat) (is_this : Bool) :
    IsStringParam C_STRING info ⟨k, is_this⟩ =
      (match info.paramTypes[k]? with
        | some ty => .ok (decide (ty = C_STRING))
        | none => .error ⟨k, info.paramTypes.length⟩) := by
  have h1 : ¬ ((k : Int) < 0) := by omega
  cases h : info.paramTypes[k]? <;> simp [IsStringParam, IsStatic, hs, h1, h]

/-- C6, evaluated on the code.  Instance method `m(String)`: one declared
parameter, type list `["java.lang.String"]`, receiver at host index 0 and the
declared parameter at host index 1.  `IsStringParam` answers `true` for the
receiver, and for declared parameter 0 it reads the type list at index 1, which
is outside the list. -/
theorem IsStringParam_instance_receiver_eval :
    hostParams false 1 = [⟨0, true⟩, ⟨1, false⟩] ∧
    IsStringParam "java.lang.String"
        ⟨false, "m", "m(java.lang.String)", hostParams false 1, ["java.lang.String"]⟩
        ⟨0, true⟩ = .ok true ∧
    IsStringParam "java.lang.String"
        ⟨false, "m", "m(java.lang.String)", hostParams false 1, ["java.lang.String"]⟩
        ⟨1, false⟩ = .error ⟨1, 1⟩ := by
  refine ⟨rfl, ?_, rfl⟩
  simp [IsStringParam, IsStatic]

/-- C7, evaluated on the code.  Static method `s(String)`: type list
`["java.lang.String"]`, its parameter at host index 0.  The type name at index
0 equals the string-type name, yet `IsStringParam` answers `false`: the index is
decremented on the static branch.  On the instance method `m(int, String)` the
index is not decremented: host index 1 (the `int` parameter) is compared with
the type name at index 1 and answers `true`. -/
theorem IsStringParam_static_adjusted_eval :
    IsStringParam "java.lang.String"
        ⟨true, "s", "s(java.lang.String)", hostParams true 1, ["java.lang.String"]⟩
        ⟨0, false⟩ = .ok false ∧
    IsStringParam "java.lang.String"
        ⟨false, "m", "m(int, java.lang.String)", hostParams false 2,
          ["int", "java.lang.String"]⟩
        ⟨1, false⟩ = .ok true := by
  refine ⟨rfl, ?_⟩
  simp [IsStringParam, IsStatic]

/-- C10, evaluated on the code.  Instance method `m(int)`: the type list has
one entry, the declared parameter has host index 1.  `IsStringParam` reads the
type list at index 1, outside `0..0`. -/
theorem IsStringParam_instance_last_param_out_of_range :
    (⟨1, false⟩ : HParameterValue) ∈ hostParams false 1 ∧
    IsStringParam "java.lang.String"
        ⟨false, "m", "m(int)", hostParams false 1, ["int"]⟩
        ⟨1, false⟩ = .error ⟨1, 1⟩ := by
  refine ⟨?_, rfl⟩
  simp [hostParams]

/-- C8.  With the parameter values the host provides (`hostParams`): on a
static method `IsThisParameter` is false for every parameter; on an instance
method exactly one parameter makes it true, the one at host index 0. -/
theorem IsThisParameter_receiver (info : ArtistMethodInfo) (n : Nat)
    (h : info.params = hostParams info.is_static n) :
    (info.IsStatic = true → ∀ p ∈ info.params, info.IsThisParameter p = false) ∧
    (info.IsStatic = false →
      info.params.countP info.IsThisParameter = 1 ∧
      ∀ p ∈ info.params, (info.IsThisParameter p = true ↔ p.index = 0)) := by
  refine ⟨?_, ?_⟩
  · intro hs p hp
    simp only [IsStatic] at hs
    rw [h, hs] at hp
    simp only [hostParams, if_true, List.mem_map, List.mem_range] at hp
    obtain ⟨i, -, rfl⟩ := hp
    rfl
  · intro hs
    simp only [IsStatic] at hs
    rw [h, hs]
    have hrest : ∀ p ∈ (List.range n).map (fun i => (⟨i + 1, false⟩ : HParameterValue)),
        ¬ (info.IsThisParameter p = true) ∧ p.index ≠ 0 := by
      intro p hp
      simp only [List.mem_map, List.mem_range] at hp
      obtain ⟨i, -, rfl⟩ := hp
      simp [IsThisParameter, HParameterValue.CanBeNull]
    refine ⟨?_, ?_⟩
    · have h0 : List.countP info.IsThisParameter
          ((List.range n).map (fun i => (⟨i + 1, false⟩ : HParameterValue))) = 0 := by
        rw [List.countP_eq_zero]
        intro p hp
        exact (hrest p hp).1
      simp [hostParams, List.countP_cons, h0, IsThisParameter, HParameterValue.CanBeNull]
    · intro p hp
      simp only [hostParams, Bool.false_eq_true, if_false, List.mem_cons] at hp
      rcases hp with rfl | hp
      · simp [IsThisParameter, HParameterValue.CanBeNull]
      · have := hrest p hp
        constructor
        · intro ht; exact absurd ht this.1
        · intro hi; exact absurd hi this.2

/-- Witness of `IsThisParameter_receiver`: the instance method `m(int, int)`. -/
theorem IsThisParameter_receiver_witness :
    List.countP
      (IsThisParameter ⟨false, "m", "m(int, int)", hostParams false 2, ["int", "int"]⟩)
      (hostParams false 2) = 1 :=
  ((IsThisParameter_receiver
    ⟨false, "m", "m(int, int)", hostParams false 2, ["int", "int"]⟩ 2 rfl).2 rfl).1

/-! ## The codelib symbol table -/

theorem mapFind_mapStore_same (m : MethodIdxMap) (k : MethodSignature) (v : MethodIdx) :
    mapFind (mapStore m k v) k = some v := by
  induction m with
  | nil => simp [mapStore, mapFind]
  | cons e rest ih =>
    obtain ⟨k', v'⟩ := e
    by_cases hk : k' = k
    · simp [mapStore, mapFind, hk]
    · simp [mapStore, mapFind, hk, ih]

theorem mapFind_mapStore_other (m : MethodIdxMap) (k s : MethodSignature) (v : MethodIdx)
    (hne : k ≠ s) : mapFind (mapStore m k v) s = mapFind m s := by
  induction m with
  | nil => simp [mapStore, mapFind, hne]
  | cons e rest ih =>
    obtain ⟨k', v'⟩ := e
    by_cases hk : k' = k
    · subst hk
      simp [mapStore, mapFind, hne]
    · by_cases hs : k' = s
      · subst hs
        simp [mapStore, mapFind, hk]
      · simp [mapStore, mapFind, hk, hs, ih]

/-- After the loop has run to its end, the map holds for every signature of the
loop what the file lookup found for it, and is unchanged elsewhere. -/
theorem initMethodIndices_ok (dex_file : DexFile) (sigs : List MethodSignature) :
    ∀ (m m' : MethodIdxMap), CodelibSymbols.initMethodIndices dex_file sigs m = .ok m' →
      (∀ s ∈ sigs, ∃ idx, dex_file.FindMethodIdx s = some idx ∧ mapFind m' s = some idx) ∧
      (∀ s, s ∉ sigs → mapFind m' s = mapFind m s) := by
  induction sigs with
  | nil =>
    intro m m' h
    simp only [CodelibSymbols.initMethodIndices, Except.ok.injEq] at h
    subst h
    simp
  | cons sig rest ih =>
    intro m m' h
    cases hf : dex_file.FindMethodIdx sig with
    | none => simp [CodelibSymbols.initMethodIndices, hf] at h
    | some idx =>
      simp only [CodelibSymbols.initMethodIndices, hf] at h
      obtain ⟨h1, h2⟩ := ih _ _ h
      refine ⟨?_, ?_⟩
      · intro s hs
        by_cases hr : s ∈ rest
        · exact h1 s hr
        · have hsig : s = sig := by
            rcases List.mem_cons.mp hs with h' | h'
            · exact h'
            · exact absurd h' hr
          subst hsig
          exact ⟨idx, hf, by rw [h2 s hr, mapFind_mapStore_same]⟩
      · intro s hs
        have hne : sig ≠ s := fun e => hs (by simp [e])
        have hr : s ∉ rest := fun e => hs (List.mem_cons_of_mem _ e)
        rw [h2 s hr, mapFind_mapStore_other _ _ _ _ hne]

/-- The loop aborts exactly at the first signature the file lookup does not
find, and runs to its end when there is none. -/
theorem initMethodIndices_firstUnresolved (dex_file : DexFile) (sigs : List MethodSignature) :
    ∀ (m : MethodIdxMap),
      (∀ s, firstUnresolved dex_file sigs = some s →
        CodelibSymbols.initMethodIndices dex_file sigs m =
          .error ("Could not find method idx for " ++ s)) ∧
      (firstUnresolved dex_file sigs = none →
        ∃ m', CodelibSymbols.initMethodIndices dex_file sigs m = .ok m') := by
  induction sigs with
  | nil =>
    intro m
    simp [firstUnresolved, CodelibSymbols.initMethodIndices]
  | cons sig rest ih =>
    intro m
    cases hf : dex_file.FindMethodIdx sig with
    | none => simp [firstUnresolved, CodelibSymbols.initMethodIndices, hf]
    | some idx =>
      simp only [firstUnresolved, CodelibSymbols.initMethodIndices, hf]
      exact ih _

theorem firstUnresolved_some (dex_file : DexFile) (sigs : List MethodSignature)
    (s : MethodSignature) (h : firstUnresolved dex_file sigs = some s) :
    s ∈ sigs ∧ dex_file.FindMethodIdx s = none := by
  induction sigs with
  | nil => simp [firstUnresolved] at h
  | cons sig rest ih =>
    cases hf : dex_file.FindMethodIdx sig with
    | none =>
      simp only [firstUnresolved, hf, Option.some.injEq] at h
      subst h
      exact ⟨by simp, hf⟩
    | some idx =>
      simp only [firstUnresolved, hf] at h
      exact ⟨List.mem_cons_of_mem _ (ih h).1, (ih h).2⟩

theorem firstUnresolved_none (dex_file : DexFile) (sigs : List MethodSignature) :
    firstUnresolved dex_file sigs = none ↔
      ∀ s ∈ sigs, ∃ idx, dex_file.FindMethodIdx s = some idx := by
  induction sigs with
  | nil => simp [firstUnresolved]
  | cons sig rest ih =>
    cases hf : dex_file.FindMethodIdx sig with
    | none => simp [firstUnresolved, hf]
    | some idx => simp [firstUnresolved, hf, ih]

/-- A table the constructor has built: the type lookup found its type index,
and the loop over the declared signatures ran to its end with its map. -/
theorem ctor_ok (dex_file : DexFile) (codelib : CodeLib) (t : CodelibSymbols)
    (h : CodelibSymbols.ctor dex_file codelib = .ok t) :
    dex_file.FindTypeIdxFromName codelib.getCodeClass = some t._type_idx ∧
    CodelibSymbols.initMethodIndices dex_file codelib.getMethods [] = .ok t._method_idx := by
  unfold CodelibSymbols.ctor at h
  cases ht : dex_file.FindTypeIdxFromName codelib.getCodeClass with
  | none => simp [ht] at h
  | some ti =>
    cases hm : CodelibSymbols.initMethodIndices dex_file codelib.getMethods [] with
    | error msg => simp [ht, hm] at h
    | ok m =>
      simp only [ht, hm, Except.ok.injEq] at h
      subst h
      exact ⟨rfl, rfl⟩

theorem scenarioTable_built :
    CodelibSymbols.ctor scenarioDex scenarioCodelib = .ok scenarioTable := by
  simp [CodelibSymbols.ctor, CodelibSymbols.initMethodIndices, scenarioDex, scenarioCodelib,
    scenarioTable, mapStore]

/-- C1.  On a table the constructor has built, `getMethodIdx s` aborts if and
only if `s` is not among the signatures the codelib declared; when it aborts the
diagnostic is "CodelibSymbols: Failed obtaining method idx for signature "
followed by `s`, which contains "Failed obtaining method idx". -/
theorem getMethodIdx_aborts_iff_undeclared (dex_file : DexFile) (codelib : CodeLib)
    (t : CodelibSymbols) (h : CodelibSymbols.ctor dex_file codelib = .ok t)
    (s : MethodSignature) :
    ((∃ msg, t.getMethodIdx s = .error msg) ↔ s ∉ codelib.getMethods) ∧
    (∀ msg, t.getMethodIdx s = .error msg →
      msg = "CodelibSymbols: Failed obtaining method idx for signature " ++ s ∧
      "Failed obtaining method idx".toList <:+: msg.toList) := by
  obtain ⟨-, hm⟩ := ctor_ok dex_file codelib t h
  obtain ⟨h1, h2⟩ := initMethodIndices_ok dex_file codelib.getMethods [] t._method_idx hm
  refine ⟨⟨?_, ?_⟩, ?_⟩
  · rintro ⟨msg, hmsg⟩ hs
    obtain ⟨idx, -, hfind⟩ := h1 s hs
    simp [CodelibSymbols.getMethodIdx, hfind] at hmsg
  · intro hs
    have hfind : mapFind t._method_idx s = none := by rw [h2 s hs]; rfl
    exact ⟨"CodelibSymbols: Failed obtaining method idx for signature " ++ s,
      by simp only [CodelibSymbols.getMethodIdx, hfind]⟩
  · intro msg hmsg
    cases hfind : mapFind t._method_idx s with
    | some v => simp [CodelibSymbols.getMethodIdx, hfind] at hmsg
    | none =>
      simp only [CodelibSymbols.getMethodIdx, hfind, Except.error.injEq] at hmsg
      subst hmsg
      refine ⟨rfl, ?_⟩
      have hsplit : "CodelibSymbols: Failed obtaining method idx for signature " =
          "CodelibSymbols: " ++ ("Failed obtaining method idx" ++ " for signature ") := by
        decide
      rw [hsplit]
      simp only [String.toList, String.data_append, List.append_assoc]
      exact List.infix_append' _ _ _

/-- Witness of `getMethodIdx_aborts_iff_undeclared`: scenario A, the lookup of
`write(int)` on the table built for the codelib that declares only `trace()`. -/
theorem getMethodIdx_aborts_iff_undeclared_witness :
    CodelibSymbols.ctor scenarioDex scenarioCodelib = .ok scenarioTable ∧
    "write(int)" ∉ scenarioCodelib.getMethods ∧
    ∃ msg, scenarioTable.getMethodIdx "write(int)" = .error msg ∧
      msg = "CodelibSymbols: Failed obtaining method idx for signature " ++ "write(int)" ∧
      "Failed obtaining method idx".toList <:+: msg.toList := by
  have hnot : "write(int)" ∉ scenarioCodelib.getMethods := by simp [scenarioCodelib]
  have hT := getMethodIdx_aborts_iff_undeclared scenarioDex scenarioCodelib scenarioTable
    scenarioTable_built "write(int)"
  obtain ⟨msg, hmsg⟩ := hT.1.2 hnot
  exact ⟨scenarioTable_built, hnot, msg, hmsg, hT.2 msg hmsg⟩

/-- C2.  On a table the constructor has built, for every signature `s` the
codelib declares, `getMethodIdx s` returns without aborting, and the value is
the index `FindMethodIdx` produced for `s` on the target file.  `getMethodIdx`
is a `const` member that reads the map only, so every call on the table returns
this value. -/
theorem getMethodIdx_returns_found (dex_file : DexFile) (codelib : CodeLib)
    (t : CodelibSymbols) (h : CodelibSymbols.ctor dex_file codelib = .ok t)
    (s : MethodSignature) (hs : s ∈ codelib.getMethods) :
    ∃ idx, dex_file.FindMethodIdx s = some idx ∧ t.getMethodIdx s = .ok idx := by
  obtain ⟨-, hm⟩ := ctor_ok dex_file codelib t h
  obtain ⟨h1, -⟩ := initMethodIndices_ok dex_file codelib.getMethods [] t._method_idx hm
  obtain ⟨idx, hf, hfind⟩ := h1 s hs
  exact ⟨idx, hf, by simp only [CodelibSymbols.getMethodIdx, hfind]⟩

/-- Witness of `getMethodIdx_returns_found`: scenario A, the lookup of
`trace()`. -/
theorem getMethodIdx_returns_found_witness :
    CodelibSymbols.ctor scenarioDex scenarioCodelib = .ok scenarioTable ∧
    "trace()" ∈ scenarioCodelib.getMethods ∧
    ∃ idx, scenarioDex.FindMethodIdx "trace()" = some idx ∧
      scenarioTable.getMethodIdx "trace()" = .ok idx :=
  ⟨scenarioTable_built, by simp [scenarioCodelib],
    getMethodIdx_returns_found scenarioDex scenarioCodelib scenarioTable
      scenarioTable_built "trace()" (by simp [scenarioCodelib])⟩

/-- C3.  The constructor completes if and only if the codelib class name is
found in the type table of the file and every declared signature is found in
its method table.  When the class is missing it aborts with "Could not find
type " followed by the class name.  When the class is found and some declared
signature is not, it aborts with "Could not find method idx for " followed by
an unresolved signature, the first one in iteration order.  When it completes,
`getTypeIdx` is the index found for the class. -/
theorem ctor_completes_iff (dex_file : DexFile) (codelib : CodeLib) :
    ((∃ t, CodelibSymbols.ctor dex_file codelib = .ok t) ↔
      (∃ ti, dex_file.FindTypeIdxFromName codelib.getCodeClass = some ti) ∧
      ∀ s ∈ codelib.getMethods, ∃ idx, dex_file.FindMethodIdx s = some idx) ∧
    (dex_file.FindTypeIdxFromName codelib.getCodeClass = none →
      CodelibSymbols.ctor dex_file codelib =
        .error ("Could not find type " ++ codelib.getCodeClass)) ∧
    ((∃ ti, dex_file.FindTypeIdxFromName codelib.getCodeClass = some ti) →
      (∃ s ∈ codelib.getMethods, dex_file.FindMethodIdx s = none) →
      ∃ s ∈ codelib.getMethods, dex_file.FindMethodIdx s = none ∧
        firstUnresolved dex_file codelib.getMethods = some s ∧
        CodelibSymbols.ctor dex_file codelib =
          .error ("Could not find method idx for " ++ s)) ∧
    (∀ t, CodelibSymbols.ctor dex_file codelib = .ok t →
      dex_file.FindTypeIdxFromName codelib.getCodeClass = some t.getTypeIdx) := by
  have hloop := initMethodIndices_firstUnresolved dex_file codelib.getMethods []
  refine ⟨⟨?_, ?_⟩, ?_, ?_, ?_⟩
  · rintro ⟨t, ht⟩
    obtain ⟨h1, h2⟩ := ctor_ok dex_file codelib t ht
    refine ⟨⟨_, h1⟩, ?_⟩
    intro s hs
    obtain ⟨idx, hf, -⟩ :=
      (initMethodIndices_ok dex_file codelib.getMethods [] t._method_idx h2).1 s hs
    exact ⟨idx, hf⟩
  · rintro ⟨⟨ti, hti⟩, hall⟩
    obtain ⟨m, hm⟩ := hloop.2 ((firstUnresolved_none dex_file codelib.getMethods).2 hall)
    exact ⟨⟨dex_file, ti, m⟩, by simp only [CodelibSymbols.ctor, hti, hm]⟩
  · intro hnone
    simp only [CodelibSymbols.ctor, hnone]
  · rintro ⟨ti, hti⟩ ⟨s0, hs0, hf0⟩
    cases hfu : firstUnresolved dex_file codelib.getMethods with
    | none =>
      obtain ⟨idx, hidx⟩ := (firstUnresolved_none dex_file codelib.getMethods).1 hfu s0 hs0
      rw [hf0] at hidx
      cases hidx
    | some s =>
      obtain ⟨hs, hf⟩ := firstUnresolved_some dex_file codelib.getMethods s hfu
      refine ⟨s, hs, hf, rfl, ?_⟩
      simp only [CodelibSymbols.ctor, hti, hloop.1 s hfu]
  · intro t ht
    exact (ctor_ok dex_file codelib t ht).1

/-- Witness of `ctor_completes_iff`: on the file of scenario A, the codelib that
also declares `write(int)` aborts construction with the diagnostic for
`write(int)`. -/
theorem ctor_completes_iff_witness :
    ∃ s ∈ scenarioCodelibWrite.getMethods, scenarioDex.FindMethodIdx s = none ∧
      firstUnresolved scenarioDex scenarioCodelibWrite.getMethods = some s ∧
      CodelibSymbols.ctor scenarioDex scenarioCodelibWrite =
        .error ("Could not find method idx for " ++ s) :=
  (ctor_completes_iff scenarioDex scenarioCodelibWrite).2.2.1
    ⟨7, by simp [scenarioDex, scenarioCodelibWrite]⟩
    ⟨"write(int)", by simp [scenarioCodelibWrite], by simp [scenarioDex]⟩

/-! ## The pass dispatcher -/

theorem Run_skip (c : Collaborators) (self : HArtist) (p : Process)
    (h : eligible c self = false) : HArtist.Run c self p = (self, p) := by
  unfold eligible at h
  unfold HArtist.Run
  by_cases hb : c.IsBlacklisted (self.method_info.GetMethodName c.signature_default) = true
  · simp [hb]
  · by_cases hc : c.isCodelib self.graph_.dex_file = true
    · simp [hc]
    · simp [hb, hc] at h

theorem Run_eligible (c : Collaborators) (self : HArtist) (p : Process)
    (h : eligible c self = true) :
    HArtist.Run c self p =
      (c.RunModule (c.SetupModule self),
        ⟨preIncrement p.method_counter, p.calls ++ [Call.SetupModule] ++ [Call.RunModule]⟩) := by
  unfold eligible at h
  simp only [Bool.and_eq_true, Bool.not_eq_true', ] at h
  simp [HArtist.Run, h.1, h.2, HArtist.Setup, HArtist.RunModule]

/-- C4.  When the method name is blacklisted, or the dex file of the method is
the codelib file, `Run` returns with the pass instance and the process state
as they were: no call of `SetupModule` or `RunModule` is added to the calls
made, the graph is the same, and the method counter is unchanged. -/
theorem Run_blacklisted_or_codelib_is_skip (c : Collaborators) (self : HArtist) (p : Process)
    (h : c.IsBlacklisted (self.method_info.GetMethodName c.signature_default) = true ∨
      c.isCodelib self.graph_.dex_file = true) :
    (HArtist.Run c self p).2.calls = p.calls ∧
    (HArtist.Run c self p).1.graph_ = self.graph_ ∧
    (HArtist.Run c self p).2.method_counter = p.method_counter ∧
    HArtist.Run c self p = (self, p) := by
  have he : eligible c self = false := by
    unfold eligible
    rcases h with h | h <;> simp [h]
  rw [Run_skip c self p he]
  exact ⟨rfl, rfl, rfl, rfl⟩

/-- Witness of `Run_blacklisted_or_codelib_is_skip`: the method `skipped` under
a blacklist that holds its name, after five methods have been counted. -/
theorem Run_blacklisted_or_codelib_is_skip_witness :
    (HArtist.Run blacklistCollaborators skippedPass ⟨5, []⟩).2.calls = [] ∧
    (HArtist.Run blacklistCollaborators skippedPass ⟨5, []⟩).1.graph_ = skippedPass.graph_ ∧
    (HArtist.Run blacklistCollaborators skippedPass ⟨5, []⟩).2.method_counter = 5 ∧
    HArtist.Run blacklistCollaborators skippedPass ⟨5, []⟩ = (skippedPass, ⟨5, []⟩) :=
  Run_blacklisted_or_codelib_is_skip blacklistCollaborators skippedPass ⟨5, []⟩
    (Or.inl (by simp [blacklistCollaborators, skippedPass, HArtist.ctor, GetMethodName,
      plainCollaborators]))

theorem Run_counter (c : Collaborators) (self : HArtist) (p : Process) :
    (HArtist.Run c self p).2.method_counter =
      if eligible c self = true then preIncrement p.method_counter else p.method_counter := by
  cases h : eligible c self with
  | false => rw [Run_skip c self p h]; simp
  | true => rw [Run_eligible c self p h]; simp

/-- The counter after a sequence of runs: the eligible methods counted on top of
the value before, modulo `2 ^ 32`. -/
theorem runAll_counter (c : Collaborators) (passes : List HArtist) :
    ∀ p : Process, p.method_counter < 2 ^ 32 →
      (runAll c passes p).method_counter =
        (p.method_counter + passes.countP (eligible c)) % 2 ^ 32 := by
  induction passes with
  | nil =>
    intro p hp
    simp only [runAll, List.countP_nil, Nat.add_zero]
    exact (Nat.mod_eq_of_lt hp).symm
  | cons self rest ih =>
    intro p hp
    have hstep := Run_counter c self p
    have hlt : (HArtist.Run c self p).2.method_counter < 2 ^ 32 := by
      rw [hstep]
      split
      · exact Nat.mod_lt _ (by norm_num)
      · exact hp
    simp only [runAll]
    rw [ih _ hlt, hstep]
    cases h : eligible c self with
    | false => simp [List.countP_cons, h]
    | true =>
      simp only [List.countP_cons, h, if_true, preIncrement]
      norm_num
      omega

theorem plainPass_eligible : eligible plainCollaborators plainPass = true := by
  simp [eligible, plainCollaborators]

/-- C9, counterexample.  Starting from the counter value 0, after 4294967295
runs of an eligible method the counter is 4294967295, and one more run of an
eligible method leaves it at 0: the value has decreased. -/
theorem method_counter_wraps_to_zero :
    eligible plainCollaborators plainPass = true ∧
    (runAll plainCollaborators (List.replicate 4294967295 plainPass)
      Process.start).method_counter = 4294967295 ∧
    (HArtist.Run plainCollaborators plainPass
      (runAll plainCollaborators (List.replicate 4294967295 plainPass)
        Process.start)).2.method_counter = 0 := by
  have h1 : (runAll plainCollaborators (List.replicate 4294967295 plainPass)
      Process.start).method_counter = 4294967295 := by
    rw [runAll_counter _ _ _ (by simp [Process.start]), List.countP_replicate]
    simp only [plainPass_eligible, if_true, Process.start]
    norm_num
  refine ⟨plainPass_eligible, h1, ?_⟩
  rw [Run_counter, h1]
  simp only [plainPass_eligible, if_true, preIncrement]
  norm_num

/-- C9, amended.  A run of a method that is not eligible leaves the counter as
it is; a run of an eligible method sets it to the value before plus one modulo
`2 ^ 32`, which is the value before plus one whenever that value is below
`2 ^ 32 - 1`.  Over every sequence of runs from the counter value 0 in which
fewer than `2 ^ 32` eligible methods are run, the counter is the number of
eligible methods run so far, so that it never decreases along the sequence. -/
theorem method_counter_monotone_until_wrap (c : Collaborators) :
    (∀ (self : HArtist) (p : Process), p.method_counter < 2 ^ 32 →
      (HArtist.Run c self p).2.method_counter < 2 ^ 32 ∧
      (eligible c self = false →
        (HArtist.Run c self p).2.method_counter = p.method_counter) ∧
      (eligible c self = true →
        (HArtist.Run c self p).2.method_counter = (p.method_counter + 1) % 2 ^ 32) ∧
      (eligible c self = true → p.method_counter < 2 ^ 32 - 1 →
        (HArtist.Run c self p).2.method_counter = p.method_counter + 1)) ∧
    (∀ (pre post : List HArtist), (pre ++ post).countP (eligible c) < 2 ^ 32 →
      (runAll c pre Process.start).method_counter = pre.countP (eligible c) ∧
      (runAll c (pre ++ post) Process.start).method_counter =
        (pre ++ post).countP (eligible c) ∧
      (runAll c pre Process.start).method_counter ≤
        (runAll c (pre ++ post) Process.start).method_counter) := by
  refine ⟨?_, ?_⟩
  · intro self p hp
    have hstep := Run_counter c self p
    refine ⟨?_, ?_, ?_, ?_⟩
    · rw [hstep]
      split
      · exact Nat.mod_lt _ (by norm_num)
      · exact hp
    · intro h
      rw [hstep]; simp [h]
    · intro h
      rw [hstep]; simp [h, preIncrement]
    · intro h hlt
      rw [hstep]
      simp only [h, if_true, preIncrement]
      apply Nat.mod_eq_of_lt
      omega
  · intro pre post hcount
    have h0 : Process.start.method_counter < 2 ^ 32 := by simp [Process.start]
    have hsplit : (pre ++ post).countP (eligible c) =
        pre.countP (eligible c) + post.countP (eligible c) := List.countP_append _ _ _
    have hpre : (runAll c pre Process.start).method_counter = pre.countP (eligible c) := by
      rw [runAll_counter c pre _ h0]
      simp only [Process.start, Nat.zero_add]
      apply Nat.mod_eq_of_lt
      omega
    have hall : (runAll c (pre ++ post) Process.start).method_counter =
        (pre ++ post).countP (eligible c) := by
      rw [runAll_counter c (pre ++ post) _ h0]
      simp only [Process.start, Nat.zero_add]
      exact Nat.mod_eq_of_lt hcount
    refine ⟨hpre, hall, ?_⟩
    rw [hpre, hall, hsplit]
    omega

/-- Witness of `method_counter_monotone_until_wrap`: a run of an eligible
method at the counter value 5 leaves it at 6. -/
theorem method_counter_monotone_until_wrap_witness :
    eligible plainCollaborators plainPass = true ∧
    (HArtist.Run plainCollaborators plainPass ⟨5, []⟩).2.method_counter = 5 + 1 :=
  ⟨plainPass_eligible,
    ((method_counter_monotone_until_wrap plainCollaborators).1 plainPass ⟨5, []⟩
      (by norm_num)).2.2.2 plainPass_eligible (by norm_num)⟩

/-! ## The injected call-site cache -/

/-- Once the cache holds a node, every further call returns it and changes
neither the pass instance nor the process state. -/
theorem getAll_cached (c : Collaborators) (cursors : List (Option HInstruction)) :
    ∀ (self : HArtist) (p : Process) (node : HInstruction),
      self.codelib_instruction = some node →
      getAll c cursors self p = (List.replicate cursors.length (some node), self, p) := by
  induction cursors with
  | nil => intro self p node _; rfl
  | cons cursor rest ih =>
    intro self p node h
    have hcall : HArtist.GetCodeLibInstruction c self p cursor = (some node, self, p) := by
      simp only [HArtist.GetCodeLibInstruction, h]
    simp only [getAll, hcall, ih self p node h, List.length_cons, List.replicate_succ]

/-- C5.  On a freshly constructed pass instance, take any sequence of
`GetCodeLibInstruction` calls, with null or non-null cursors in any order, the
first of which makes `InjectCodeLib` return a node.  Then `InjectCodeLib` is
invoked exactly once, by the first call; every call returns that node; the
graph after the whole sequence is the graph the first injection left, whatever
the later cursors are.  The first call anchors the injection at the last
instruction of the entry block when its cursor is null, and at its cursor
otherwise. -/
theorem GetCodeLibInstruction_injects_once (c : Collaborators) (graph : HGraph)
    (info : ArtistMethodInfo) (p : Process) (rest : List (Option HInstruction))
    (node : HInstruction) (g' : HGraph) :
    (c.InjectCodeLib graph.GetEntryBlockLastInstruction none graph = (some node, g') →
      getAll c (none :: rest) (HArtist.ctor graph info) p =
        (List.replicate (rest.length + 1) (some node),
          ⟨g', info, some node⟩,
          ⟨p.method_counter,
            p.calls ++ [Call.InjectCodeLib graph.GetEntryBlockLastInstruction none]⟩)) ∧
    (∀ cursor : HInstruction,
      c.InjectCodeLib (some cursor) (some false) graph = (some node, g') →
      getAll c (some cursor :: rest) (HArtist.ctor graph info) p =
        (List.replicate (rest.length + 1) (some node),
          ⟨g', info, some node⟩,
          ⟨p.method_counter,
            p.calls ++ [Call.InjectCodeLib (some cursor) (some false)]⟩)) := by
  refine ⟨?_, ?_⟩
  · intro h
    have hcall : HArtist.GetCodeLibInstruction c (HArtist.ctor graph info) p none =
        (some node, ⟨g', info, some node⟩,
          ⟨p.method_counter,
            p.calls ++ [Call.InjectCodeLib graph.GetEntryBlockLastInstruction none]⟩) := by
      simp only [HArtist.GetCodeLibInstruction, HArtist.ctor, h]
    simp only [getAll, hcall, List.replicate_succ]
    rw [getAll_cached c rest ⟨g', info, some node⟩ _ node rfl]
  · intro cursor h
    have hcall : HArtist.GetCodeLibInstruction c (HArtist.ctor graph info) p (some cursor) =
        (some node, ⟨g', info, some node⟩,
          ⟨p.method_counter,
            p.calls ++ [Call.InjectCodeLib (some cursor) (some false)]⟩) := by
      simp only [HArtist.GetCodeLibInstruction, HArtist.ctor, h]
    simp only [getAll, hcall, List.replicate_succ]
    rw [getAll_cached c rest ⟨g', info, some node⟩ _ node rfl]

/-- Witness of `GetCodeLibInstruction_injects_once`: three calls with the cursors
null, `2`, null on a pass whose entry block ends in node `3`; the primitive is
invoked once, anchored at `3`, and all three calls return node `100`. -/
theorem GetCodeLibInstruction_injects_once_witness :
    getAll plainCollaborators [none, some 2, none] plainPass Process.start =
      ([some 100, some 100, some 100],
        ⟨⟨scenarioDex, [1, 2, 3]⟩, plainPass.method_info, some 100⟩,
        ⟨0, [Call.InjectCodeLib (some 3) none]⟩) :=
  (GetCodeLibInstruction_injects_once plainCollaborators ⟨scenarioDex, [1, 2, 3]⟩
    ⟨false, "m", "m(int)", hostParams false 1, ["int"]⟩ Process.start [some 2, none]
    100 ⟨scenarioDex, [1, 2, 3]⟩).1 rfl

end art
